import Mathlib

/-!
Verification of the sysmon core against its design document.

The definitions below are a shallow embedding of the Go sources:
`main.go` (configuration, token authenticator, HTTP gates, broadcast hub),
`shell.go` (shell session bridge) and `monitor/monitor.go` (history ring
buffer).  The keyed hash `hex(hmac-sha256(authSecret, payload))` is kept
abstract as a function parameter `mac : String → String`; everything else
is translated directly.  Unix instants are unbounded integers; the int64
range check of `strconv.ParseInt` is modelled explicitly.
-/

namespace Sysmon

/-- Go `strings.SplitN(s, ":", 2)` on the character list of `s`:
`some (before, after)` splits at the first occurrence of `sep`; `none`
states that `sep` does not occur, in which case Go returns a single-element
slice and the token validators reject (`len(parts) != 2`). -/
def splitFirst (sep : Char) : List Char → Option (List Char × List Char)
  | [] => none
  | c :: cs =>
    if c = sep then some ([], cs)
    else
      match splitFirst sep cs with
      | none => none
      | some (a, b) => some (c :: a, b)

/-- Decimal digit value of a character, `none` when it is not a digit. -/
def digitVal (c : Char) : Option Nat :=
  if '0' ≤ c ∧ c ≤ '9' then some (c.toNat - '0'.toNat) else none

/-- Accumulating base-10 parse; fails on the first non-digit character. -/
def parseDigitsAux : Nat → List Char → Option Nat
  | acc, [] => some acc
  | acc, c :: cs =>
    match digitVal c with
    | none => none
    | some d => parseDigitsAux (acc * 10 + d) cs

/-- Base-10 parse of a non-empty all-digit character list. -/
def parseDigits (cs : List Char) : Option Nat :=
  if cs.isEmpty then none else parseDigitsAux 0 cs

def int64Max : Int := 2 ^ 63 - 1

def int64Min : Int := -(2 ^ 63)

/-- Go `strconv.ParseInt(s, 10, 64)`: optional sign, at least one digit,
value must fit in int64 (on overflow Go reports an error, modelled `none`). -/
def parseInt64 (cs : List Char) : Option Int :=
  match cs with
  | [] => none
  | c :: rest =>
    if c = '-' then
      match parseDigits rest with
      | none => none
      | some n => if (n : Int) > 2 ^ 63 then none else some (-(n : Int))
    else if c = '+' then
      match parseDigits rest with
      | none => none
      | some n => if (n : Int) > int64Max then none else some (n : Int)
    else
      match parseDigits cs with
      | none => none
      | some n => if (n : Int) > int64Max then none else some (n : Int)

/-- Payload signed into a dashboard token: `fmt.Sprintf("%d:%s", expiry, password)`
(main.go, `generateToken`/`validateToken`). -/
def dashPayload (expiry : Int) (password : String) : String :=
  Int.repr expiry ++ ":" ++ password

/-- Payload signed into a shell token:
`fmt.Sprintf("shell:%d:%s", expiry, shellPassword)`
(main.go, `generateShellToken`/`validateShellToken`). -/
def shellPayload (expiry : Int) (shellPassword : String) : String :=
  "shell:" ++ Int.repr expiry ++ ":" ++ shellPassword

/-- main.go `generateToken`: a dashboard token `"<expiry>:<sig>"` with a
24-hour lifetime.  `mac` stands for `hex(hmac-sha256(authSecret, ·))`. -/
def generateToken (mac : String → String) (now : Int) (password : String) : String :=
  let expiry := now + 24 * 3600
  Int.repr expiry ++ ":" ++ mac (dashPayload expiry password)

/-- main.go `validateToken`: split at the first colon, parse the expiry,
reject when expired (`now > expiry`), recompute and compare the signature. -/
def validateToken (mac : String → String) (now : Int) (token password : String) : Bool :=
  match splitFirst ':' token.data with
  | none => false
  | some (p0, p1) =>
    match parseInt64 p0 with
    | none => false
    | some expiry =>
      if now > expiry then false
      else p1.asString == mac (dashPayload expiry password)

/-- main.go `generateShellToken`: a shell token `"<expiry>:<sig>"` with a
1-hour lifetime, signed over the `"shell:"`-prefixed payload. -/
def generateShellToken (mac : String → String) (now : Int) (shellPassword : String) : String :=
  let expiry := now + 3600
  Int.repr expiry ++ ":" ++ mac (shellPayload expiry shellPassword)

/-- main.go `validateShellToken`: like `validateToken` but recomputing the
signature over the `"shell:"`-prefixed payload. -/
def validateShellToken (mac : String → String) (now : Int) (token shellPassword : String) : Bool :=
  match splitFirst ':' token.data with
  | none => false
  | some (p0, p1) =>
    match parseInt64 p0 with
    | none => false
    | some expiry =>
      if now > expiry then false
      else p1.asString == mac (shellPayload expiry shellPassword)

/-- Request data consulted by the authentication code: the `token` query
parameter (Go `r.URL.Query().Get("token")`, `""` when absent), the
`shell_token` query parameter (sent by web/js/shell.js), and the
`sysmon_token` cookie (`none` models `r.Cookie` returning an error). -/
structure Request where
  queryToken : String
  queryShellToken : String
  cookieToken : Option String

/-- main.go `Config` (runtime configuration). -/
structure Config where
  port : Int
  refreshInterval : Int
  maxProcesses : Int
  password : String
  historyDuration : Int
  enableShell : Bool
  shellPassword : String

/-- main.go `Config.ShellEnabled`: true only when shell is explicitly
enabled AND shell_password is set. -/
def Config.ShellEnabled (c : Config) : Bool :=
  c.enableShell && c.shellPassword != ""

/-- main.go `isAuthenticated`: empty password means no auth; otherwise the
non-empty `token` query parameter decides alone; otherwise the cookie; a
request with neither is rejected. -/
def isAuthenticated (mac : String → String) (now : Int) (r : Request)
    (password : String) : Bool :=
  if password == "" then true
  else if r.queryToken != "" then validateToken mac now r.queryToken password
  else
    match r.cookieToken with
    | some v => validateToken mac now v password
    | none => false

/-- Outcome of the pre-upgrade checks of shell.go `handleShell`. -/
inductive ShellGate where
  /-- 403 `"shell disabled: no password configured"` (`cfg.Password == ""`). -/
  | forbiddenNoPassword
  /-- 403 `"shell disabled in config"` (`!cfg.EnableShell`). -/
  | forbiddenDisabled
  /-- 401 `"unauthorized"` (`!isAuthenticated(r, cfg.Password)`). -/
  | unauthorized
  /-- all checks passed: the websocket is upgraded and a session is opened. -/
  | accepted
deriving DecidableEq, Repr

/-- shell.go `handleShell`, the three guards executed before the websocket
upgrade, in source order. -/
def shellGate (mac : String → String) (now : Int) (cfg : Config)
    (r : Request) : ShellGate :=
  if cfg.password == "" then .forbiddenNoPassword
  else if !cfg.enableShell then .forbiddenDisabled
  else if !isAuthenticated mac now r cfg.password then .unauthorized
  else .accepted

/-- main.go `hub.broadcast`, with connections as abstract identifiers and
`fails c = true` meaning `conn.WriteMessage` returns a non-nil error for
`c`.  Result: (connections whose write succeeded — i.e. that received the
payload, in iteration order; connections still registered after the pass).
A failing connection is closed and deleted from the set at once and the
loop continues. -/
def hubBroadcast (fails : Nat → Bool) : List Nat → List Nat × List Nat
  | [] => ([], [])
  | c :: cs =>
    let rest := hubBroadcast fails cs
    if fails c then (rest.1, rest.2)
    else (c :: rest.1, c :: rest.2)

/-- monitor/monitor.go `HistoryPoint`. -/
structure HistoryPoint where
  timestamp : Int
  cpuAvg : Float
  memPercent : Float

/-- State of the history ring buffer: `histBuf` and `histCapacity`
(monitor/monitor.go; the capacity is a Go `int`, initially 3600). -/
structure HistState where
  histBuf : List HistoryPoint
  histCapacity : Int

/-- monitor/monitor.go `SetHistoryCapacity`: sets `histCapacity := n`
unconditionally, then truncates `histBuf` to its last `n` points whenever
`len(histBuf) > n`.  The Go slice expression `histBuf[len(histBuf)-n:]`
is out of range when `n < 0` (its low bound exceeds its high bound), which
aborts the program; that abort is modelled as `none`. -/
def SetHistoryCapacity (n : Int) (st : HistState) : Option HistState :=
  if (st.histBuf.length : Int) > n then
    if 0 ≤ n then
      some ⟨st.histBuf.drop (st.histBuf.length - n.toNat), n⟩
    else none
  else some ⟨st.histBuf, n⟩

/-- monitor/monitor.go `RecordHistory`: append one point, then truncate to
the last `histCapacity` points whenever the length exceeds the capacity
(same out-of-range abort as `SetHistoryCapacity` when the capacity is
negative). -/
def RecordHistory (pt : HistoryPoint) (st : HistState) : Option HistState :=
  let buf := st.histBuf ++ [pt]
  if (buf.length : Int) > st.histCapacity then
    if 0 ≤ st.histCapacity then
      some ⟨buf.drop (buf.length - st.histCapacity.toNat), st.histCapacity⟩
    else none
  else some ⟨buf, st.histCapacity⟩

/-- monitor/monitor.go `GetHistory`: a copy of the buffer contents in
insertion order. -/
def GetHistory (st : HistState) : List HistoryPoint :=
  st.histBuf

/-- Run a sequence of `RecordHistory` calls, propagating an abort. -/
def appendAll : List HistoryPoint → HistState → Option HistState
  | [], st => some st
  | p :: ps, st =>
    match RecordHistory p st with
    | none => none
    | some st' => appendAll ps st'

/-- shell.go `shellMessage`: the JSON control envelope of a text frame.
`cols`/`rows` are Go `uint16` fields, so a successfully parsed value
carries non-negative counts below 2^16. -/
structure ShellMsg where
  type_ : String
  cols : Nat
  rows : Nat

/-- Inbound websocket frame of a shell session.  A text frame carries the
result of `json.Unmarshal` into `shellMessage`: `none` models a non-nil
unmarshal error (malformed JSON, or a negative number offered to a uint16
field), `some msg` a successful parse. -/
inductive InFrame where
  | binary (data : List Nat)
  | text (parsed : Option ShellMsg)

/-- Observable pseudo-terminal state driven by the transport→process pump:
the sequence of byte chunks written to the pty input, and the window size
last applied by `pty.Setsize` (`none` before any resize). -/
structure PtyState where
  input : List (List Nat)
  winsize : Option (Nat × Nat)

/-- shell.go `handleShell`, body of the transport→process pump for one
received frame: a binary frame is written verbatim to the pty input; a
text frame parsing as `{type:"resize", cols>0, rows>0}` resizes the pty;
any other text frame is ignored. -/
def pumpStep (st : PtyState) (f : InFrame) : PtyState :=
  match f with
  | .binary data => { st with input := st.input ++ [data] }
  | .text parsed =>
    match parsed with
    | none => st
    | some msg =>
      if msg.type_ == "resize" && decide (msg.cols > 0) && decide (msg.rows > 0) then
        { st with winsize := some (msg.cols, msg.rows) }
      else st

/-- Processing of a whole sequence of inbound frames by the pump loop,
which only ends on a transport read error — no frame content ends it. -/
def pumpRun (st : PtyState) (fs : List InFrame) : PtyState :=
  fs.foldl pumpStep st

/-- The three events of shell.go that trigger session cleanup. -/
inductive TriggerCause where
  | processExit
  | idleTimeout
  | transportError
deriving DecidableEq, Repr

/-- Resource side-effects of one shell session: how many times the pty
device was closed and the child process killed and reaped, plus the state
of the `sync.Once` guard `closeOnce`. -/
structure SessionRes where
  ptyClosed : Nat
  killed : Nat
  waited : Nat
  onceDone : Bool
deriving DecidableEq, Repr

/-- shell.go `cleanup`: `closeOnce.Do` runs the body — `ptmx.Close()`,
`cmd.Process.Kill()`, `cmd.Wait()` — only if it has not run before. -/
def cleanup (s : SessionRes) : SessionRes :=
  if s.onceDone then s
  else ⟨s.ptyClosed + 1, s.killed + 1, s.waited + 1, true⟩

/-- Session resources before any termination trigger fires. -/
def freshSession : SessionRes := ⟨0, 0, 0, false⟩

/-- Every termination trigger converges on `cleanup`; a run of the session
end-game is an arbitrary interleaving (sequence) of trigger events. -/
def runTriggers (ts : List TriggerCause) (s : SessionRes) : SessionRes :=
  ts.foldl (fun acc _ => cleanup acc) s

/-! Auxiliary lemmas about decimal formatting and parsing. -/

lemma digitVal_digitChar {m : Nat} (h : m < 10) :
    digitVal (Nat.digitChar m) = some m := by
  interval_cases m <;> decide

lemma toDigitsCore_digits :
    ∀ (fuel n : Nat) (ds : List Char),
      (∀ c ∈ ds, '0' ≤ c ∧ c ≤ '9') →
      ∀ c ∈ Nat.toDigitsCore 10 fuel n ds, '0' ≤ c ∧ c ≤ '9' := by
  intro fuel
  induction fuel with
  | zero => intro n ds h c hc; exact h c hc
  | succ f ih =>
    intro n ds h c hc
    simp only [Nat.toDigitsCore] at hc
    have hm : n % 10 < 10 := Nat.mod_lt _ (by omega)
    have hdc : '0' ≤ Nat.digitChar (n % 10) ∧ Nat.digitChar (n % 10) ≤ '9' := by
      interval_cases h : n % 10 <;> decide
    split at hc
    · rcases List.mem_cons.mp hc with h1 | h1
      · exact h1 ▸ hdc
      · exact h c h1
    · refine ih (n / 10) (Nat.digitChar (n % 10) :: ds) ?_ c hc
      intro c' hc'
      rcases List.mem_cons.mp hc' with h1 | h1
      · exact h1 ▸ hdc
      · exact h c' h1

lemma natRepr_data (n : Nat) : (Nat.repr n).data = Nat.toDigits 10 n := rfl

lemma natRepr_digits (n : Nat) :
    ∀ c ∈ (Nat.repr n).data, '0' ≤ c ∧ c ≤ '9' := by
  intro c hc
  rw [natRepr_data] at hc
  exact toDigitsCore_digits (n + 1) n [] (by simp) c hc

lemma toDigitsCore_length_le :
    ∀ (fuel n : Nat) (ds : List Char),
      ds.length ≤ (Nat.toDigitsCore 10 fuel n ds).length := by
  intro fuel
  induction fuel with
  | zero => intro n ds; simp [Nat.toDigitsCore]
  | succ f ih =>
    intro n ds
    simp only [Nat.toDigitsCore]
    split
    · simp
    · calc ds.length ≤ (Nat.digitChar (n % 10) :: ds).length := by simp
        _ ≤ _ := ih (n / 10) _

lemma toDigits_ne_nil (n : Nat) : Nat.toDigits 10 n ≠ [] := by
  have h : 1 ≤ (Nat.toDigits 10 n).length := by
    simp only [Nat.toDigits, Nat.toDigitsCore]
    split
    · simp
    · have := toDigitsCore_length_le n (n / 10) [Nat.digitChar (n % 10)]
      simpa using this
  intro hnil
  rw [hnil] at h
  simp at h

/-- Number of decimal digits of a natural number. -/
def digitsLen (n : Nat) : Nat :=
  if n < 10 then 1 else digitsLen (n / 10) + 1
termination_by n
decreasing_by exact Nat.div_lt_self (by omega) (by omega)

lemma parseDigitsAux_toDigitsCore :
    ∀ (fuel n : Nat), n < fuel → ∀ (acc : Nat) (ds : List Char),
      parseDigitsAux acc (Nat.toDigitsCore 10 fuel n ds)
        = parseDigitsAux (acc * 10 ^ digitsLen n + n) ds := by
  intro fuel
  induction fuel with
  | zero => intro n hn; exact absurd hn (Nat.not_lt_zero n)
  | succ f ih =>
    intro n hn acc ds
    simp only [Nat.toDigitsCore]
    by_cases h10 : n / 10 = 0
    · rw [if_pos h10]
      have hlt : n < 10 := by omega
      have hmod : n % 10 = n := Nat.mod_eq_of_lt hlt
      have hdl : digitsLen n = 1 := by rw [digitsLen]; simp [hlt]
      rw [hmod, hdl, parseDigitsAux, digitVal_digitChar hlt]
      norm_num
    · rw [if_neg h10]
      have h10' : 10 ≤ n := by omega
      have hstep : n / 10 < f := by
        have : n / 10 < n := Nat.div_lt_self (by omega) (by omega)
        omega
      rw [ih (n / 10) hstep acc (Nat.digitChar (n % 10) :: ds)]
      have hm : n % 10 < 10 := Nat.mod_lt _ (by omega)
      rw [parseDigitsAux, digitVal_digitChar hm]
      dsimp only
      have hdl : digitsLen n = digitsLen (n / 10) + 1 := by
        rw [digitsLen]; simp [Nat.not_lt.mpr h10']
      rw [hdl, pow_succ, ← mul_assoc]
      congr 1
      generalize acc * 10 ^ digitsLen (n / 10) = X
      omega

lemma parseDigits_toDigits (n : Nat) :
    parseDigits (Nat.toDigits 10 n) = some n := by
  have hne : Nat.toDigits 10 n ≠ [] := toDigits_ne_nil n
  have hemp : (Nat.toDigits 10 n).isEmpty = false := by
    cases h : Nat.toDigits 10 n
    · exact absurd h hne
    · rfl
  rw [parseDigits, hemp]
  simp only [Bool.false_eq_true, if_false]
  rw [show Nat.toDigits 10 n = Nat.toDigitsCore 10 (n + 1) n [] from rfl]
  rw [parseDigitsAux_toDigitsCore (n + 1) n (Nat.lt_succ_self n) 0 []]
  simp [parseDigitsAux]

lemma parseDigits_natRepr (n : Nat) : parseDigits (Nat.repr n).data = some n := by
  rw [natRepr_data]; exact parseDigits_toDigits n

lemma natRepr_head (n : Nat) :
    ∃ c cs, (Nat.repr n).data = c :: cs ∧ '0' ≤ c ∧ c ≤ '9' := by
  cases h : (Nat.repr n).data with
  | nil =>
    exact absurd (by rw [natRepr_data] at h; exact h) (toDigits_ne_nil n)
  | cons c cs =>
    refine ⟨c, cs, rfl, natRepr_digits n c ?_⟩
    rw [h]; exact List.mem_cons_self c cs

lemma parseInt64_intRepr (i : Int) :
    parseInt64 (Int.repr i).data
      = if int64Min ≤ i ∧ i ≤ int64Max then some i else none := by
  cases i with
  | ofNat n =>
    obtain ⟨c, cs, hcs, hc0, hc9⟩ := natRepr_head n
    have hrepr : (Int.repr (Int.ofNat n)).data = c :: cs := hcs
    have hcm : c ≠ '-' := by
      intro e; rw [e] at hc0; exact absurd hc0 (by decide)
    have hcp : c ≠ '+' := by
      intro e; rw [e] at hc0; exact absurd hc0 (by decide)
    rw [hrepr, parseInt64, if_neg hcm, if_neg hcp, ← hcs, parseDigits_natRepr]
    dsimp only
    have hmin : int64Min ≤ Int.ofNat n := by
      have : (0 : Int) ≤ Int.ofNat n := Int.ofNat_nonneg n
      rw [int64Min]; omega
    by_cases hmax : (n : Int) > int64Max
    · rw [if_pos hmax, if_neg]
      intro ⟨_, h2⟩
      exact absurd h2 (not_le.mpr hmax)
    · rw [if_neg hmax, if_pos ⟨hmin, not_lt.mp (by exact hmax)⟩]
      rfl
  | negSucc m =>
    have hrepr : (Int.repr (Int.negSucc m)).data = '-' :: (Nat.repr (m + 1)).data := by
      show (("-" : String) ++ Nat.repr (Nat.succ m)).data = _
      rw [String.data_append]
      rfl
    rw [hrepr, parseInt64, if_pos rfl, parseDigits_natRepr]
    dsimp only
    have hmax : Int.negSucc m ≤ int64Max := by
      have : Int.negSucc m < 0 := Int.negSucc_lt_zero m
      rw [int64Max]; omega
    have hns : Int.negSucc m = -((m : Int) + 1) := Int.negSucc_eq m
    by_cases hbig : ((m + 1 : Nat) : Int) > 2 ^ 63
    · rw [if_pos hbig, if_neg]
      intro ⟨h1, _⟩
      rw [int64Min, hns] at h1
      push_cast at hbig
      omega
    · rw [if_neg hbig, if_pos]
      · congr 1
      · constructor
        · rw [int64Min, hns]
          push_cast at hbig
          omega
        · exact hmax

lemma natRepr_no_colon (n : Nat) : ':' ∉ (Nat.repr n).data := by
  intro hc
  exact absurd (natRepr_digits n ':' hc) (by decide)

lemma intRepr_no_colon (i : Int) : ':' ∉ (Int.repr i).data := by
  cases i with
  | ofNat n => exact natRepr_no_colon n
  | negSucc m =>
    intro hc
    have hrepr : (Int.repr (Int.negSucc m)).data = '-' :: (Nat.repr (m + 1)).data := by
      show (("-" : String) ++ Nat.repr (Nat.succ m)).data = _
      rw [String.data_append]
      rfl
    rw [hrepr] at hc
    rcases List.mem_cons.mp hc with h1 | h1
    · exact absurd h1 (by decide)
    · exact natRepr_no_colon (m + 1) h1

lemma splitFirst_append (sep : Char) (a b : List Char) (ha : sep ∉ a) :
    splitFirst sep (a ++ sep :: b) = some (a, b) := by
  induction a with
  | nil => simp [splitFirst]
  | cons c cs ih =>
    have hc : c ≠ sep := by
      intro e; exact ha (by rw [e]; exact List.mem_cons_self sep cs)
    have ha' : sep ∉ cs := fun h => ha (List.mem_cons_of_mem c h)
    simp only [List.cons_append, splitFirst, List.append_eq, if_neg hc, ih ha']

lemma intRepr_head (i : Int) :
    ∃ c cs, (Int.repr i).data = c :: cs ∧ (c = '-' ∨ ('0' ≤ c ∧ c ≤ '9')) := by
  cases i with
  | ofNat n =>
    obtain ⟨c, cs, hcs, hd⟩ := natRepr_head n
    exact ⟨c, cs, hcs, Or.inr hd⟩
  | negSucc m =>
    refine ⟨'-', (Nat.repr (m + 1)).data, ?_, Or.inl rfl⟩
    show (("-" : String) ++ Nat.repr (Nat.succ m)).data = _
    rw [String.data_append]
    rfl

lemma token_data (e : Int) (s : String) :
    (Int.repr e ++ ":" ++ s).data = (Int.repr e).data ++ ':' :: s.data := by
  simp [String.data_append]

lemma asString_data (s : String) : s.data.asString = s := rfl

lemma validateToken_generateToken (mac : String → String) (i t : Int) (pw : String)
    (h1 : int64Min ≤ i + 24 * 3600) (h2 : i + 24 * 3600 ≤ int64Max) :
    validateToken mac t (generateToken mac i pw) pw = decide (t ≤ i + 24 * 3600) := by
  rw [generateToken]
  rw [validateToken, token_data, splitFirst_append ':' _ _ (intRepr_no_colon _)]
  dsimp only
  rw [parseInt64_intRepr, if_pos ⟨h1, h2⟩]
  dsimp only
  by_cases h : t > i + 24 * 3600
  · rw [if_pos h]
    rw [decide_eq_false (not_le.mpr h)]
  · rw [if_neg h, asString_data, decide_eq_true (not_lt.mp h)]
    exact beq_self_eq_true _

lemma validateShellToken_generateShellToken (mac : String → String) (i t : Int)
    (pw : String) (h1 : int64Min ≤ i + 3600) (h2 : i + 3600 ≤ int64Max) :
    validateShellToken mac t (generateShellToken mac i pw) pw
      = decide (t ≤ i + 3600) := by
  rw [generateShellToken]
  rw [validateShellToken, token_data, splitFirst_append ':' _ _ (intRepr_no_colon _)]
  dsimp only
  rw [parseInt64_intRepr, if_pos ⟨h1, h2⟩]
  dsimp only
  by_cases h : t > i + 3600
  · rw [if_pos h]
    rw [decide_eq_false (not_le.mpr h)]
  · rw [if_neg h, asString_data, decide_eq_true (not_lt.mp h)]
    exact beq_self_eq_true _

lemma shellPayload_head (e : Int) (pw : String) :
    (shellPayload e pw).data.head? = some 's' := by
  rw [shellPayload]
  simp [String.data_append]

lemma dashPayload_head (e : Int) (pw : String) :
    ∃ c, (dashPayload e pw).data.head? = some c
      ∧ (c = '-' ∨ ('0' ≤ c ∧ c ≤ '9')) := by
  obtain ⟨c, cs, hc, hcase⟩ := intRepr_head e
  refine ⟨c, ?_, hcase⟩
  rw [dashPayload]
  simp [String.data_append, hc]

lemma shellPayload_ne_dashPayload (e e' : Int) (pw pw' : String) :
    shellPayload e pw ≠ dashPayload e' pw' := by
  intro h
  obtain ⟨c, hch, hcase⟩ := dashPayload_head e' pw'
  have hs : (shellPayload e pw).data.head? = some 's' := shellPayload_head e pw
  rw [h, hch] at hs
  have hcs : c = 's' := Option.some.inj hs
  rw [hcs] at hcase
  rcases hcase with h1 | h1
  · exact absurd h1 (by decide)
  · exact absurd h1 (by decide)

/-- C4: for each domain (dashboard 24 h, shell 1 h) and any secret, a
freshly issued token validates with the same secret at any instant strictly
before its expiry instant, and fails at any instant after the expiry
instant has passed.  (`issueT` must leave the expiry inside the int64 range
that Go's `strconv.ParseInt` accepts, which int64 arithmetic guarantees.) -/
theorem claim_C4_token_roundtrip (mac : String → String) (issueT t : Int)
    (secret : String) (hlo : 0 ≤ issueT) (hhi : issueT + 24 * 3600 ≤ int64Max) :
    (t < issueT + 24 * 3600 →
      validateToken mac t (generateToken mac issueT secret) secret = true) ∧
    (t > issueT + 24 * 3600 →
      validateToken mac t (generateToken mac issueT secret) secret = false) ∧
    (t < issueT + 3600 →
      validateShellToken mac t (generateShellToken mac issueT secret) secret = true) ∧
    (t > issueT + 3600 →
      validateShellToken mac t (generateShellToken mac issueT secret) secret = false) := by
  have hmin : (int64Min : Int) < 0 := by rw [int64Min]; decide
  have hd1 : int64Min ≤ issueT + 24 * 3600 := by omega
  have hs1 : int64Min ≤ issueT + 3600 := by omega
  have hs2 : issueT + 3600 ≤ int64Max := by omega
  refine ⟨?_, ?_, ?_, ?_⟩
  · intro ht
    rw [validateToken_generateToken mac issueT t secret hd1 hhi]
    exact decide_eq_true (le_of_lt ht)
  · intro ht
    rw [validateToken_generateToken mac issueT t secret hd1 hhi]
    exact decide_eq_false (not_le.mpr ht)
  · intro ht
    rw [validateShellToken_generateShellToken mac issueT t secret hs1 hs2]
    exact decide_eq_true (le_of_lt ht)
  · intro ht
    rw [validateShellToken_generateShellToken mac issueT t secret hs1 hs2]
    exact decide_eq_false (not_le.mpr ht)

/-- Witness for C4 at a concrete instant: token issued at time 0, checked
at 10 (before both expiries) and at 90000 (after both expiries), with the
identity as keyed hash. -/
theorem claim_C4_token_roundtrip_witness :
    validateToken id 10 (generateToken id 0 "pw") "pw" = true ∧
    validateToken id 90000 (generateToken id 0 "pw") "pw" = false ∧
    validateShellToken id 10 (generateShellToken id 0 "pw") "pw" = true ∧
    validateShellToken id 90000 (generateShellToken id 0 "pw") "pw" = false := by
  have h := claim_C4_token_roundtrip id 0 10 "pw" (by decide)
    (by rw [int64Max]; decide)
  have h' := claim_C4_token_roundtrip id 0 90000 "pw" (by decide)
    (by rw [int64Max]; decide)
  exact ⟨h.1 (by decide), h'.2.1 (by decide), h.2.2.1 (by decide),
    h'.2.2.2 (by decide)⟩

/-- C5: for any expiry instants and any secret material, identical for both
domains, a shell-domain token fails dashboard validation and a
dashboard-domain token fails shell validation, provided the keyed hash is
injective (collision-free on the two payload namespaces). -/
theorem claim_C5_cross_domain (mac : String → String)
    (hinj : Function.Injective mac) (iD iS t : Int) (pw : String) :
    validateToken mac t (generateShellToken mac iS pw) pw = false ∧
    validateShellToken mac t (generateToken mac iD pw) pw = false := by
  constructor
  · rw [generateShellToken]
    rw [validateToken, token_data, splitFirst_append ':' _ _ (intRepr_no_colon _)]
    dsimp only
    rw [parseInt64_intRepr]
    by_cases hr : int64Min ≤ iS + 3600 ∧ iS + 3600 ≤ int64Max
    · rw [if_pos hr]
      dsimp only
      by_cases ht : t > iS + 3600
      · rw [if_pos ht]
      · rw [if_neg ht, asString_data]
        exact beq_eq_false_iff_ne.mpr
          (fun hmac => shellPayload_ne_dashPayload _ _ pw pw (hinj hmac))
    · rw [if_neg hr]
  · rw [generateToken]
    rw [validateShellToken, token_data, splitFirst_append ':' _ _ (intRepr_no_colon _)]
    dsimp only
    rw [parseInt64_intRepr]
    by_cases hr : int64Min ≤ iD + 24 * 3600 ∧ iD + 24 * 3600 ≤ int64Max
    · rw [if_pos hr]
      dsimp only
      by_cases ht : t > iD + 24 * 3600
      · rw [if_pos ht]
      · rw [if_neg ht, asString_data]
        exact beq_eq_false_iff_ne.mpr
          (fun hmac => shellPayload_ne_dashPayload _ _ pw pw (hinj hmac.symm))
    · rw [if_neg hr]

/-- Witness for C5: with the identity as (injective) keyed hash, a shell
token issued at 0 is rejected by dashboard validation at instant 0, and
vice versa. -/
theorem claim_C5_cross_domain_witness :
    validateToken id 0 (generateShellToken id 0 "p") "p" = false ∧
    validateShellToken id 0 (generateToken id 0 "p") "p" = false :=
  claim_C5_cross_domain id Function.injective_id 0 0 0 "p"

/-! History ring buffer: the Go truncation `histBuf[len(histBuf)-k:]` is
`List.rtake k` (`drop (length - k)`), the most recent `k` points. -/

lemma length_rtake (l : List HistoryPoint) (k : Nat) :
    (l.rtake k).length = min k l.length := by
  rw [List.rtake, List.length_drop]
  omega

lemma rtake_of_length_le (l : List HistoryPoint) (k : Nat) (h : l.length ≤ k) :
    l.rtake k = l := by
  rw [List.rtake, Nat.sub_eq_zero_of_le h, List.drop_zero]

lemma rtake_rtake_append (k : Nat) (acc : List HistoryPoint) (p : HistoryPoint) :
    (acc.rtake k ++ [p]).rtake k = (acc ++ [p]).rtake k := by
  cases k with
  | zero => rw [List.rtake_zero, List.rtake_zero]
  | succ j =>
    rw [List.rtake_concat_succ, List.rtake_concat_succ]
    congr 1
    rw [List.rtake_eq_reverse_take_reverse, List.rtake_eq_reverse_take_reverse,
      List.rtake_eq_reverse_take_reverse, List.reverse_reverse, List.take_take,
      min_eq_left (Nat.le_succ j)]

lemma recordHistory_rtake (cap : Int) (hcap : 0 ≤ cap) (acc : List HistoryPoint)
    (p : HistoryPoint) :
    RecordHistory p ⟨acc.rtake cap.toNat, cap⟩
      = some ⟨(acc ++ [p]).rtake cap.toNat, cap⟩ := by
  rw [RecordHistory]
  dsimp only
  by_cases hcond : (((acc.rtake cap.toNat ++ [p]).length : Nat) : Int) > cap
  · rw [if_pos hcond, if_pos hcap]
    exact congrArg (fun l => some (⟨l, cap⟩ : HistState))
      (rtake_rtake_append cap.toNat acc p)
  · rw [if_neg hcond]
    have hlr : (acc.rtake cap.toNat).length = min cap.toNat acc.length :=
      length_rtake acc cap.toNat
    have hlen : acc.length + 1 ≤ cap.toNat := by
      rw [List.length_append, List.length_singleton, hlr] at hcond
      omega
    congr 1
    rw [rtake_of_length_le acc cap.toNat (by omega),
      rtake_of_length_le (acc ++ [p]) cap.toNat
        (by rw [List.length_append, List.length_singleton]; omega)]

lemma appendAll_rtake (cap : Int) (hcap : 0 ≤ cap) :
    ∀ (pts acc : List HistoryPoint),
      appendAll pts ⟨acc.rtake cap.toNat, cap⟩
        = some ⟨(acc ++ pts).rtake cap.toNat, cap⟩ := by
  intro pts
  induction pts with
  | nil => intro acc; rw [appendAll, List.append_nil]
  | cons p ps ih =>
    intro acc
    rw [appendAll, recordHistory_rtake cap hcap acc p]
    dsimp only
    rw [ih (acc ++ [p]), List.append_assoc, List.singleton_append]

/-- C3: at any fixed non-negative capacity, running any sequence of appends
from an empty buffer yields exactly the most recent `min(capacity,
totalAppended)` points in insertion order (`List.rtake`), and the length of
the readable contents never exceeds the capacity.  Since the appended
sequence is universally quantified, this holds after every call (apply the
statement to each prefix). -/
theorem claim_C3_history_bound (cap : Int) (hcap : 0 ≤ cap)
    (pts : List HistoryPoint) :
    appendAll pts ⟨[], cap⟩ = some ⟨pts.rtake cap.toNat, cap⟩ ∧
    ∀ st, appendAll pts ⟨[], cap⟩ = some st →
      GetHistory st = pts.rtake cap.toNat ∧
      ((GetHistory st).length : Int) ≤ cap ∧
      (GetHistory st).length = min cap.toNat pts.length := by
  have h := appendAll_rtake cap hcap pts []
  rw [List.rtake_nil, List.nil_append] at h
  refine ⟨h, ?_⟩
  intro st hst
  rw [h] at hst
  have hst' : st = ⟨pts.rtake cap.toNat, cap⟩ := (Option.some.inj hst).symm
  subst hst'
  refine ⟨rfl, ?_, ?_⟩
  · rw [GetHistory]
    dsimp only
    rw [length_rtake]
    omega
  · rw [GetHistory]
    dsimp only
    exact length_rtake pts cap.toNat

/-- Sample history point used by concrete witnesses. -/
def pt (k : Int) : HistoryPoint := ⟨k, 0, 0⟩

/-- Witness for C3: three appends at capacity 2 keep the most recent two
points, in order, with length 2 ≤ 2. -/
theorem claim_C3_history_bound_witness :
    appendAll [pt 1, pt 2, pt 3] ⟨[], 2⟩ = some ⟨[pt 2, pt 3], 2⟩ := by
  have h := (claim_C3_history_bound 2 (by decide) [pt 1, pt 2, pt 3]).1
  simpa [List.rtake] using h

/-- C2, counterexample: the claim says `setCapacity 0` is a no-op guard
keeping prior capacity 5 and the single stored point; the code instead sets
the capacity to 0 and empties the buffer. -/
theorem claim_C2_counterexample :
    SetHistoryCapacity 0 ⟨[pt 1], 5⟩ ≠ some ⟨[pt 1], 5⟩ := by
  rw [SetHistoryCapacity]
  norm_num

/-- C2, amended: `setCapacity n` always sets the capacity to `n`; for
`n > 0` it truncates to the most recent `min(length, n)` points; for
`n = 0` it empties the buffer; for `n < 0` the Go slice expression is out
of range and the program aborts — there is no `≤ 0` no-op guard. -/
theorem claim_C2_amended (n : Int) (st : HistState) :
    (0 < n → SetHistoryCapacity n st = some ⟨st.histBuf.rtake n.toNat, n⟩) ∧
    (n = 0 → SetHistoryCapacity n st = some ⟨[], 0⟩) ∧
    (n < 0 → SetHistoryCapacity n st = none) := by
  refine ⟨?_, ?_, ?_⟩
  · intro hn
    rw [SetHistoryCapacity]
    by_cases hc : ((st.histBuf.length : Nat) : Int) > n
    · rw [if_pos hc, if_pos (le_of_lt hn)]
      rfl
    · rw [if_neg hc]
      congr 1
      rw [rtake_of_length_le st.histBuf n.toNat (by omega)]
  · intro hn
    subst hn
    rw [SetHistoryCapacity]
    by_cases hc : ((st.histBuf.length : Nat) : Int) > 0
    · rw [if_pos hc, if_pos le_rfl]
      congr 1
      rw [Int.toNat_zero, Nat.sub_zero, List.drop_length]
    · rw [if_neg hc]
      have : st.histBuf = [] := by
        cases hb : st.histBuf with
        | nil => rfl
        | cons a l => rw [hb] at hc; simp at hc
      rw [this]
  · intro hn
    rw [SetHistoryCapacity, if_pos (by omega), if_neg (by omega)]

/-- Witness for C2 (amended): shrink 5 → 1 keeps the most recent point;
capacity 0 empties; capacity −1 aborts. -/
theorem claim_C2_amended_witness :
    SetHistoryCapacity 1 ⟨[pt 1, pt 2], 5⟩ = some ⟨[pt 2], 1⟩ ∧
    SetHistoryCapacity 0 ⟨[pt 1], 5⟩ = some ⟨[], 0⟩ ∧
    SetHistoryCapacity (-1) ⟨[pt 1], 5⟩ = none := by
  refine ⟨?_, (claim_C2_amended 0 ⟨[pt 1], 5⟩).2.1 rfl,
    (claim_C2_amended (-1) ⟨[pt 1], 5⟩).2.2 (by decide)⟩
  have h := (claim_C2_amended 1 ⟨[pt 1, pt 2], 5⟩).1 (by decide)
  simpa [List.rtake] using h

/-! Connection hub. -/

lemma hubBroadcast_single_failure (fails : Nat → Bool) (k : Nat) :
    ∀ cs : List Nat, fails k = true → (∀ c ∈ cs, c ≠ k → fails c = false) →
      hubBroadcast fails cs
        = (cs.filter (fun c => c != k), cs.filter (fun c => c != k)) := by
  intro cs
  induction cs with
  | nil => intro _ _; rfl
  | cons c cs ih =>
    intro hfk hothers
    have ih' := ih hfk (fun c' hc' hne => hothers c' (List.mem_cons_of_mem c hc') hne)
    by_cases hck : c = k
    · subst hck
      simp [hubBroadcast, hfk, ih']
    · have hfc : fails c = false := hothers c (List.mem_cons_self c cs) hck
      simp [hubBroadcast, hfc, ih', hck]

/-- C6: during a broadcast over any registered set in which exactly one
connection `k` fails its write, every other connection is still written the
payload (in iteration order), `k` is removed from the registered set before
the pass ends, and the pass processes every connection — a failing
subscriber never aborts delivery to the others. -/
theorem claim_C6_hub_isolation (fails : Nat → Bool) (cs : List Nat) (k : Nat)
    (_hk : k ∈ cs) (hfk : fails k = true)
    (hothers : ∀ c ∈ cs, c ≠ k → fails c = false) :
    (hubBroadcast fails cs).1 = cs.filter (fun c => c != k) ∧
    (hubBroadcast fails cs).2 = cs.filter (fun c => c != k) ∧
    k ∉ (hubBroadcast fails cs).2 ∧
    ∀ c ∈ cs, c ≠ k → c ∈ (hubBroadcast fails cs).1 := by
  have h := hubBroadcast_single_failure fails k cs hfk hothers
  rw [h]
  refine ⟨rfl, rfl, ?_, ?_⟩
  · intro hmem
    have := List.of_mem_filter hmem
    simp at this
  · intro c hc hne
    exact List.mem_filter.mpr ⟨hc, by simp [hne]⟩

/-- Witness for C6, the design document's own scenario: three connections,
the second fails; 1 and 3 receive the payload and remain registered, 2 is
gone. -/
theorem claim_C6_hub_isolation_witness :
    (hubBroadcast (fun c => c == 2) [1, 2, 3]).1 = [1, 3] ∧
    (hubBroadcast (fun c => c == 2) [1, 2, 3]).2 = [1, 3] ∧
    2 ∉ (hubBroadcast (fun c => c == 2) [1, 2, 3]).2 := by
  have h := claim_C6_hub_isolation (fun c => c == 2) [1, 2, 3] 2
    (by decide) (by decide) (by decide)
  exact ⟨by rw [h.1]; rfl, by rw [h.2.1]; rfl, h.2.2.1⟩

/-! Shell session: transport→process pump and exactly-once cleanup. -/

/-- C7: in an active session, a binary frame is appended verbatim to the
pseudo-terminal input; a text frame parsing as a resize with positive
dimensions updates the window size and nothing else; a text frame with a
zero dimension, or whose unmarshal fails (malformed JSON — including any
negative number offered to the uint16 fields), leaves the state unchanged
and the pump continues with the remaining frames. -/
theorem claim_C7_pump (st : PtyState) (d : List Nat) (msg : ShellMsg)
    (fs : List InFrame) :
    (pumpStep st (InFrame.binary d) = { st with input := st.input ++ [d] }) ∧
    (msg.type_ = "resize" → 0 < msg.cols → 0 < msg.rows →
      pumpStep st (InFrame.text (some msg))
        = { st with winsize := some (msg.cols, msg.rows) }) ∧
    (msg.cols = 0 ∨ msg.rows = 0 → pumpStep st (InFrame.text (some msg)) = st) ∧
    (pumpStep st (InFrame.text none) = st) ∧
    (msg.cols = 0 ∨ msg.rows = 0 →
      pumpRun st (InFrame.text (some msg) :: fs) = pumpRun st fs) ∧
    (pumpRun st (InFrame.text none :: fs) = pumpRun st fs) := by
  have hnone : pumpStep st (InFrame.text none) = st := rfl
  have hzero : msg.cols = 0 ∨ msg.rows = 0 →
      pumpStep st (InFrame.text (some msg)) = st := by
    intro h
    rw [pumpStep]
    rw [if_neg]
    intro hcond
    rcases h with h | h <;>
      simp [h] at hcond
  refine ⟨rfl, ?_, hzero, hnone, ?_, ?_⟩
  · intro htype hc hr
    rw [pumpStep]
    rw [if_pos]
    simp [htype, hc, hr]
  · intro h
    rw [pumpRun, List.foldl_cons, hzero h]
    rfl
  · rw [pumpRun, List.foldl_cons, hnone]
    rfl

/-- Witness for C7: a resize to 80×24 is applied; a resize with zero
columns and a malformed text frame are ignored; bytes pass through. -/
theorem claim_C7_pump_witness :
    pumpStep ⟨[], none⟩ (InFrame.binary [104, 105]) = ⟨[[104, 105]], none⟩ ∧
    pumpStep ⟨[], none⟩ (InFrame.text (some ⟨"resize", 80, 24⟩))
      = ⟨[], some (80, 24)⟩ ∧
    pumpStep ⟨[], none⟩ (InFrame.text (some ⟨"resize", 0, 24⟩)) = ⟨[], none⟩ ∧
    pumpStep ⟨[], none⟩ (InFrame.text none) = ⟨[], none⟩ := by
  have h := claim_C7_pump ⟨[], none⟩ [104, 105] ⟨"resize", 80, 24⟩ []
  have h0 := claim_C7_pump ⟨[], none⟩ [104, 105] ⟨"resize", 0, 24⟩ []
  exact ⟨h.1, h.2.1 rfl (by decide) (by decide), h0.2.2.1 (Or.inl rfl), h.2.2.2.1⟩

lemma runTriggers_done (s : SessionRes) (h : s.onceDone = true) :
    ∀ ts : List TriggerCause, runTriggers ts s = s := by
  intro ts
  induction ts with
  | nil => rfl
  | cons t ts ih =>
    rw [runTriggers, List.foldl_cons]
    rw [cleanup, if_pos h]
    exact ih

/-- C8: whatever non-empty sequence of termination triggers (process exit,
idle timeout, transport error) fires, in whatever interleaving, the pty is
closed and the child killed and reaped exactly once, and every further
trigger is a no-op. -/
theorem claim_C8_cleanup_once (ts : List TriggerCause) (hne : ts ≠ []) :
    runTriggers ts freshSession = ⟨1, 1, 1, true⟩ ∧
    cleanup (runTriggers ts freshSession) = runTriggers ts freshSession := by
  obtain ⟨t, ts', rfl⟩ : ∃ t ts', ts = t :: ts' := by
    cases ts with
    | nil => exact absurd rfl hne
    | cons t ts' => exact ⟨t, ts', rfl⟩
  have h1 : cleanup freshSession = ⟨1, 1, 1, true⟩ := rfl
  have h2 : runTriggers (t :: ts') freshSession = ⟨1, 1, 1, true⟩ := by
    rw [runTriggers, List.foldl_cons, h1]
    exact runTriggers_done ⟨1, 1, 1, true⟩ rfl ts'
  exact ⟨h2, by rw [h2]; rfl⟩

/-- Witness for C8, the design document's scenario: idle timeout fires
concurrently with a process exit (one interleaving), and the resources are
released exactly once. -/
theorem claim_C8_cleanup_once_witness :
    runTriggers [TriggerCause.idleTimeout, TriggerCause.processExit] freshSession
      = ⟨1, 1, 1, true⟩ :=
  (claim_C8_cleanup_once [TriggerCause.idleTimeout, TriggerCause.processExit]
    (by decide)).1

/-! Authentication gates: C1, C9, C10. -/

/-- Sample configuration: dashboard password "pw", shell enabled with its
own shell password "spw". -/
def cfgBoth : Config := ⟨8888, 1500, 50, "pw", 3600, true, "spw"⟩

/-- C1 is false of the code: `handleShell` gates on
`isAuthenticated(r, cfg.Password)` — the dashboard domain — and never calls
`validateShellToken`.  At this input a request presenting only a valid
dashboard-domain token (no shell token at all) is accepted by the shell
endpoint, even though that token is not a valid shell-domain token; and a
request presenting only a valid shell-domain token is rejected. -/
theorem claim_C1_shell_gate_uses_dashboard_domain :
    shellGate id 10 cfgBoth ⟨generateToken id 0 "pw", "", none⟩
      = ShellGate.accepted ∧
    validateShellToken id 10 (generateToken id 0 "pw") "spw" = false ∧
    shellGate id 10 cfgBoth
      ⟨generateShellToken id 0 "spw", generateShellToken id 0 "spw", none⟩
      = ShellGate.unauthorized ∧
    validateShellToken id 10 (generateShellToken id 0 "spw") "spw" = true ∧
    cfgBoth.ShellEnabled = true := by
  refine ⟨?_, ?_, ?_, ?_, rfl⟩ <;> decide

/-- Sample configuration for C9: dashboard password set, shell enabled,
shell password (the shell domain's secret) left empty. -/
def cfgEmptyShellSecret : Config := ⟨8888, 1500, 50, "pw", 3600, true, ""⟩

/-- C9, counterexample: the claim says an empty configured secret for the
shell domain disables authentication for that domain entirely so that
requests proceed without any token.  With the shell secret empty and shell
enabled, a token-less request to the shell endpoint does not proceed: it is
rejected as unauthorized (by the dashboard-domain gate). -/
theorem claim_C9_counterexample :
    cfgEmptyShellSecret.shellPassword = "" ∧
    shellGate id 0 cfgEmptyShellSecret ⟨"", "", none⟩
      = ShellGate.unauthorized := by
  exact ⟨rfl, rfl⟩

/-- C9, amended: the dashboard domain behaves as claimed — an empty
dashboard password disables authentication entirely, and with a non-empty
password a request carrying no usable token is rejected.  The shell
endpoint, however, never consults the shell secret: it rejects as forbidden
when the dashboard password is empty or shell is not enabled, otherwise it
requires dashboard-domain authentication; the configured shell password has
no effect on the gate. -/
theorem claim_C9_amended (mac : String → String) (now : Int) (r : Request)
    (cfg : Config) (pw : String) :
    (isAuthenticated mac now r "" = true) ∧
    (pw ≠ "" → r.queryToken = "" → r.cookieToken = none →
      isAuthenticated mac now r pw = false) ∧
    (cfg.password = "" → shellGate mac now cfg r = ShellGate.forbiddenNoPassword) ∧
    (cfg.password ≠ "" → cfg.enableShell = false →
      shellGate mac now cfg r = ShellGate.forbiddenDisabled) ∧
    (cfg.password ≠ "" → cfg.enableShell = true → r.queryToken = "" →
      r.cookieToken = none → shellGate mac now cfg r = ShellGate.unauthorized) ∧
    (∀ s, shellGate mac now { cfg with shellPassword := s } r
      = shellGate mac now cfg r) := by
  refine ⟨?_, ?_, ?_, ?_, ?_, ?_⟩
  · rw [isAuthenticated]
    simp
  · intro hpw hq hc
    rw [isAuthenticated]
    simp [hpw, hq, hc]
  · intro hpw
    rw [shellGate]
    simp [hpw]
  · intro hpw hsh
    rw [shellGate]
    simp [hpw, hsh]
  · intro hpw hsh hq hc
    rw [shellGate]
    simp only [beq_iff_eq, hpw, if_false, hsh, Bool.not_true, Bool.false_eq_true,
      if_false]
    rw [isAuthenticated]
    simp [hpw, hq, hc]
  · intro s
    rfl

/-- Witness for C9 (amended) at concrete inputs: no auth with empty
dashboard password; token-less request rejected under password "pw"; the
shell gate's three rejection shapes; and insensitivity of the gate to the
shell secret. -/
theorem claim_C9_amended_witness :
    isAuthenticated id 0 ⟨"", "", none⟩ "" = true ∧
    isAuthenticated id 0 ⟨"", "", none⟩ "pw" = false ∧
    shellGate id 0 ⟨8888, 1500, 50, "", 3600, true, "spw"⟩ ⟨"", "", none⟩
      = ShellGate.forbiddenNoPassword ∧
    shellGate id 0 ⟨8888, 1500, 50, "pw", 3600, false, "spw"⟩ ⟨"", "", none⟩
      = ShellGate.forbiddenDisabled ∧
    shellGate id 0 cfgEmptyShellSecret ⟨"", "", none⟩ = ShellGate.unauthorized ∧
    shellGate id 0 { cfgEmptyShellSecret with shellPassword := "zzz" } ⟨"", "", none⟩
      = shellGate id 0 cfgEmptyShellSecret ⟨"", "", none⟩ := by
  have h1 := claim_C9_amended id 0 ⟨"", "", none⟩
    ⟨8888, 1500, 50, "", 3600, true, "spw"⟩ "pw"
  have h2 := claim_C9_amended id 0 ⟨"", "", none⟩
    ⟨8888, 1500, 50, "pw", 3600, false, "spw"⟩ "pw"
  have h3 := claim_C9_amended id 0 ⟨"", "", none⟩ cfgEmptyShellSecret "pw"
  exact ⟨h1.1, h1.2.1 (by decide) rfl rfl, h1.2.2.1 rfl,
    h2.2.2.2.1 (by decide) rfl,
    h3.2.2.2.2.1 (by decide) rfl rfl rfl,
    h3.2.2.2.2.2 "zzz"⟩

/-- C10: with authentication enabled (non-empty password), a request whose
URL query carries a non-empty `token` parameter is decided solely by
validating that query token — the cookie is never consulted — so an invalid
query token is rejected even alongside a valid cookie token. -/
theorem claim_C10_query_token_precedence (mac : String → String) (now : Int)
    (r : Request) (password : String) (hpw : password ≠ "")
    (hq : r.queryToken ≠ "") :
    isAuthenticated mac now r password
      = validateToken mac now r.queryToken password ∧
    (validateToken mac now r.queryToken password = false →
      isAuthenticated mac now r password = false) := by
  have h : isAuthenticated mac now r password
      = validateToken mac now r.queryToken password := by
    rw [isAuthenticated]
    simp [hpw, hq]
  exact ⟨h, fun hv => by rw [h, hv]⟩

/-- Witness for C10: a garbage query token alongside a valid cookie token
is rejected under password "pw". -/
theorem claim_C10_query_token_precedence_witness :
    isAuthenticated id 10 ⟨"garbage", "", some (generateToken id 0 "pw")⟩ "pw"
      = false := by
  have h := claim_C10_query_token_precedence id 10
    ⟨"garbage", "", some (generateToken id 0 "pw")⟩ "pw" (by decide) (by decide)
  exact h.2 (by decide)

end Sysmon
